import Mathlib

/-!
Shallow embedding of `django_fsm/db/fields/fsmfield.py` (the django-fsm
state-tracking module): the `FSMMeta` registry, the `transition` decorator's
registration step and its `_change_state` wrapper, `can_proceed`, and
`accessible_states`, together with theorems settling the specification
claims about them.

Modelling conventions:
- A Django model instance is reduced to the part the code reads and writes:
  the ordered list of its FSMField/FSMKeyField-typed fields, each carried as
  a (field name, current value) pair.  Other attributes are never touched by
  the code under verification.
- Python values returned by guards and method bodies are modelled by `PyVal`
  with Python truthiness; raised exceptions by `PyError` through
  `Except PyError`.  Positional and keyword arguments are folded into one
  `Args` list; guards and bodies are opaque functions of instance and
  arguments that do not themselves mutate the state attribute.
- Python dicts (`FSMMeta.transitions`, `FSMMeta.conditions`) are association
  lists in insertion order with in-place overwrite on re-assignment, exactly
  the observable dict behaviour the code relies on.
- A function that Python runs for effect on the instance is modelled as
  returning the instance as it stands when control leaves the function,
  normally or by exception, so "state unchanged on the exception path" is a
  real statement and not an artifact of the embedding.
-/

namespace DjangoFsm

/-- A Python value as far as this module observes it: `None`, a bool, an int
or a string.  Guards and bodies may return any of these. -/
inductive PyVal where
  | none : PyVal
  | bool : Bool → PyVal
  | int : Int → PyVal
  | str : String → PyVal
deriving DecidableEq

/-- Python truthiness of a `PyVal`, as used by `if not condition(...)`,
`all(...)` and the `and`/`or` idioms in the source. -/
def PyVal.truthy : PyVal → Bool
  | .none => false
  | .bool b => b
  | .int n => n != 0
  | .str s => s != ""

/-- The exceptions the module raises or observes: `TypeError` (raised by
`_get_state_field` for a malformed model, and by a guard on arity mismatch),
`KeyError` (missing dict key), `ValueError` (decoration-time missing target),
`NotImplementedError` (illegal transition / non-transition method), and any
other exception raised by user code, carried as `userError`. -/
inductive PyError where
  | typeError : String → PyError
  | keyError : String → PyError
  | valueError : String → PyError
  | notImplementedError : String → PyError
  | userError : String → PyError
deriving DecidableEq

/-- Python `dict` lookup on an insertion-ordered association list. -/
def dictGet {α : Type} : List (String × α) → String → Option α
  | [], _ => Option.none
  | (k', v) :: rest, k => if k' = k then some v else dictGet rest k

/-- Python `dict` assignment: overwrite in place when the key exists, else
append at the end (insertion order, last write wins). -/
def dictSet {α : Type} : List (String × α) → String → α → List (String × α)
  | [], k, v => [(k, v)]
  | (k', v') :: rest, k, v =>
      if k' = k then (k, v) :: rest else (k', v') :: dictSet rest k v

/-- Python `dict.has_key`. -/
def hasKey {α : Type} (d : List (String × α)) (k : String) : Bool :=
  (dictGet d k).isSome

/-- A Django model instance, reduced to its FSMField/FSMKeyField-typed
fields in declaration order, each as a (field name, current value) pair:
`instance._meta.fields` filtered by the `isinstance` check of
`_get_state_field` yields exactly these. -/
structure Instance where
  stateFields : List (String × String)
deriving DecidableEq

/-- The `FSMMeta._get_state_field` lookup: the unique FSM field of the
model, a `TypeError` when there are zero or more than one. -/
def get_state_field (inst : Instance) : Except PyError String :=
  match inst.stateFields with
  | [] => .error (.typeError "No FSMField found in model")
  | f :: rest =>
      match rest with
      | [] => .ok f.1
      | _ => .error (.typeError "More than one FSMField found in model")

/-- Python `getattr(instance, field_name)` for a state field.  The code only
reads names produced by `_get_state_field`, which are present by
construction. -/
def getattr (inst : Instance) (name : String) : String :=
  (dictGet inst.stateFields name).getD ""

/-- Python `setattr(instance, field_name, value)` for a state field. -/
def setattr (inst : Instance) (name : String) (v : String) : Instance :=
  ⟨dictSet inst.stateFields name v⟩

/-- The `FSMMeta.current_state` read: the unique state field's value. -/
def current_state (inst : Instance) : Except PyError String :=
  match get_state_field inst with
  | .error e => .error e
  | .ok fieldName => .ok (getattr inst fieldName)

/-- Call arguments: positional and keyword arguments folded into one list of
Python values. -/
abbrev Args := List PyVal

/-- A guard predicate: a function of (instance, *args, **kwargs) that
returns a Python value or raises. -/
abbrev Guard := Instance → Args → Except PyError PyVal

/-- A decorated method's body: a function of (instance, *args, **kwargs)
that returns a Python value or raises; opaque to the dispatch logic. -/
abbrev Body := Instance → Args → Except PyError PyVal

/-- Per-method transition metadata (`FSMMeta`): `transitions` maps source
state to target state; `conditions` maps target state to its guard list. -/
structure FSMMeta where
  transitions : List (String × String)
  conditions : List (String × List Guard)

/-- The `FSMMeta.has_transition` check: the current state has an exact entry
or the registry has a wildcard entry. -/
def FSMMeta.has_transition (meta : FSMMeta) (inst : Instance) :
    Except PyError Bool :=
  match current_state inst with
  | .error e => .error e
  | .ok cur => .ok (hasKey meta.transitions cur || hasKey meta.transitions "*")

/-- The `next` computation in `FSMMeta.conditions_met`, that is
`self.transitions.has_key(cur) and self.transitions[cur] or
self.transitions['*']`: the exact entry when present and truthy, else the
wildcard entry, a `KeyError` when that is also absent. -/
def FSMMeta.resolveNext (meta : FSMMeta) (cur : String) :
    Except PyError String :=
  match dictGet meta.transitions cur with
  | some t =>
      if t ≠ "" then .ok t
      else
        match dictGet meta.transitions "*" with
        | some w => .ok w
        | Option.none => .error (.keyError "*")
  | Option.none =>
      match dictGet meta.transitions "*" with
      | some w => .ok w
      | Option.none => .error (.keyError "*")

/-- The `map(lambda f: f(instance, *args, **kwargs), guards)` step — Python 2
`map` builds the whole list, so every guard is invoked, in order, before
`all` inspects any result; the first raising guard aborts the map. -/
def evalGuards (gs : List Guard) (inst : Instance) (args : Args) :
    Except PyError (List PyVal) :=
  match gs with
  | [] => .ok []
  | g :: rest =>
      match g inst args with
      | .error e => .error e
      | .ok v =>
          match evalGuards rest inst args with
          | .error e => .error e
          | .ok vs => .ok (v :: vs)

/-- The `FSMMeta.conditions_met` check: resolve the target, fetch its guard
list and return `all(...)` of the guard results, with `except TypeError:
return False` around the lookup-and-evaluate step. -/
def FSMMeta.conditions_met (meta : FSMMeta) (inst : Instance) (args : Args) :
    Except PyError Bool :=
  match current_state inst with
  | .error e => .error e
  | .ok cur =>
      match meta.resolveNext cur with
      | .error e => .error e
      | .ok nxt =>
          match (match dictGet meta.conditions nxt with
                 | some gs =>
                     match evalGuards gs inst args with
                     | .error e => .error e
                     | .ok vs => .ok (vs.all PyVal.truthy)
                 | Option.none =>
                     .error (PyError.keyError nxt) : Except PyError Bool) with
          | .error (.typeError _) => .ok false
          | .error e => .error e
          | .ok b => .ok b

/-- The target resolution of `FSMMeta.to_next_state`: `try:
transitions[curr] except KeyError: transitions['*']` — the exact entry when
present (truthy or not), else the wildcard entry. -/
def FSMMeta.advanceTarget (meta : FSMMeta) (curr : String) :
    Except PyError String :=
  match dictGet meta.transitions curr with
  | some t => .ok t
  | Option.none =>
      match dictGet meta.transitions "*" with
      | some w => .ok w
      | Option.none => .error (.keyError "*")

/-- The `FSMMeta.to_next_state` advance: write the configured target into
the state field, preferring the exact entry over the wildcard. -/
def FSMMeta.to_next_state (meta : FSMMeta) (inst : Instance) :
    Except PyError Instance :=
  match get_state_field inst with
  | .error e => .error e
  | .ok fieldName =>
      match meta.advanceTarget (getattr inst fieldName) with
      | .error e => .error e
      | .ok nextState => .ok (setattr inst fieldName nextState)

/-- The `source` argument of the `transition` decorator: a scalar state (or
the wildcard), or a list of states. -/
inductive Source where
  | single : String → Source
  | multi : List String → Source

/-- A fresh `FSMMeta()`. -/
def mkFSMMeta : FSMMeta := ⟨[], []⟩

/-- The registration step of `inner_transition`: each declared source maps
to the target, and `conditions[target]` is set to the declared guard list. -/
def registerTransition (meta : FSMMeta) (source : Source) (target : String)
    (conds : List Guard) : FSMMeta :=
  let ts :=
    match source with
    | .multi ss => ss.foldl (fun d s => dictSet d s target) meta.transitions
    | .single s => dictSet meta.transitions s target
  { transitions := ts, conditions := dictSet meta.conditions target conds }

/-- The guard loop of `_change_state`: evaluate the decorator's closure
`conditions` in declared order, `return False` at the first falsy result,
and let a raising guard propagate. -/
def guardLoop (conds : List Guard) (inst : Instance) (args : Args) :
    Except PyError Bool :=
  match conds with
  | [] => .ok true
  | g :: rest =>
      match g inst args with
      | .error e => .error e
      | .ok v => if v.truthy then guardLoop rest inst args else .ok false

/-- The `_change_state` wrapper the decorator returns: legality check, guard
loop, body, state advance, optional save.  The result pairs the outcome
(`.ok` returned value or `.error` raised exception) with the instance as it
stands when control leaves the wrapper.  The save hook (`instance.save()`)
is an external collaborator that does not touch the in-memory state
attribute and is modelled as a no-op. -/
def change_state (meta : FSMMeta) (funcName : String) (conds : List Guard)
    (save : Bool) (body : Body) (inst : Instance) (args : Args) :
    Except PyError PyVal × Instance :=
  match meta.has_transition inst with
  | .error e => (.error e, inst)
  | .ok false =>
      match current_state inst with
      | .error e => (.error e, inst)
      | .ok cur =>
          (.error (.notImplementedError ("Can\x27t switch from state \x27" ++
            cur ++ "\x27 using method \x27" ++ funcName ++ "\x27")), inst)
  | .ok true =>
      match guardLoop conds inst args with
      | .error e => (.error e, inst)
      | .ok false => (.ok (.bool false), inst)
      | .ok true =>
          match body inst args with
          | .error e => (.error e, inst)
          | .ok _ =>
              match meta.to_next_state inst with
              | .error e => (.error e, inst)
              | .ok inst' =>
                  let _ := save
                  (.ok .none, inst')

/-- A bound method as `can_proceed` sees it: the function name
(`im_func.__name__`), the `_django_fsm` attribute when the method is
decorated, and the receiver (`im_self`). -/
structure BoundMethod where
  name : String
  fsm : Option FSMMeta
  self : Instance

/-- The `can_proceed` query: `NotImplementedError` for a non-transition
method, else `has_transition and conditions_met`. -/
def can_proceed (bm : BoundMethod) (args : Args) : Except PyError Bool :=
  match bm.fsm with
  | Option.none =>
      .error (.notImplementedError (bm.name ++ " method is not transition"))
  | some meta =>
      match meta.has_transition bm.self with
      | .error e => .error e
      | .ok ht => if ht then meta.conditions_met bm.self args else .ok false

/-- A decorated method as the introspection scan sees it: its name and its
`_django_fsm` metadata. -/
structure TransMethod where
  name : String
  meta : FSMMeta

/-- A `defaultdict(list)` append: `state_actions[source].append(x)`. -/
def dictAppend {α : Type} :
    List (String × List α) → String → α → List (String × List α)
  | [], k, v => [(k, [v])]
  | (k', vs) :: rest, k, v =>
      if k' = k then (k, vs ++ [v]) :: rest
      else (k', vs) :: dictAppend rest k v

/-- The class scan of `accessible_states`: for every decorated method and
every (source, target) pair in its registry, append (method, target) under
the source key.  The scan order is `dir(instance)` order; the once-per-class
caching only shares this value across calls and does not change it. -/
def buildStateActions (ms : List TransMethod) :
    List (String × List (TransMethod × String)) :=
  ms.foldl
    (fun sa m =>
      m.meta.transitions.foldl (fun sa p => dictAppend sa p.1 (m, p.2)) sa)
    []

/-- A `state_actions[current]` read on a `defaultdict(list)`: empty when the
key is absent. -/
def lookupActions (sa : List (String × List (TransMethod × String)))
    (k : String) : List (TransMethod × String) :=
  (dictGet sa k).getD []

/-- The filter loop of `accessible_states`: keep the candidates whose
`conditions_met` is truthy; a non-`TypeError` exception from a guard
propagates out of the loop. -/
def filterAccessible (inst : Instance) (args : Args) :
    List (TransMethod × String) →
    Except PyError (List (TransMethod × String))
  | [] => .ok []
  | c :: rest =>
      match c.1.meta.conditions_met inst args with
      | .error e => .error e
      | .ok b =>
          match filterAccessible inst args rest with
          | .error e => .error e
          | .ok restL => .ok (if b then c :: restL else restL)

/-- The `accessible_states` query: build (or reuse) the class index, look up
the candidates under the current state key, and filter them by
`conditions_met` with the given arguments. -/
def accessible_states (ms : List TransMethod) (inst : Instance)
    (args : Args) : Except PyError (List (TransMethod × String)) :=
  match current_state inst with
  | .error e => .error e
  | .ok cur => filterAccessible inst args (lookupActions (buildStateActions ms) cur)

/-! Concrete fixtures mirroring the repository's test models (`BlogPost`
and friends in `django_fsm/tests.py`), used to instantiate the theorems. -/

/-- A fresh `BlogPost()`-like instance: one FSM field `state` holding
`new`. -/
def instNew : Instance := ⟨[("state", "new")]⟩

/-- An instance whose single FSM field `state` holds `published`. -/
def instPublished : Instance := ⟨[("state", "published")]⟩

/-- The metadata the decorator attaches to `publish` (`new` → `published`,
no conditions). -/
def publishMeta : FSMMeta :=
  registerTransition mkFSMMeta (.single "new") "published" []

/-- The metadata the decorator attaches to `hide` (`published` → `hidden`,
no conditions). -/
def hideMeta : FSMMeta :=
  registerTransition mkFSMMeta (.single "published") "hidden" []

/-- The metadata the decorator attaches to `remove` (`new` → `removed`). -/
def removeMeta : FSMMeta :=
  registerTransition mkFSMMeta (.single "new") "removed" []

/-- The metadata the decorator attaches to `moderate` (`*` → `moderated`). -/
def moderateMeta : FSMMeta :=
  registerTransition mkFSMMeta (.single "*") "moderated" []

/-- A body that always raises, like `BlogPost.remove`. -/
def removeBody : Body := fun _ _ => .error (.userError "No rights to delete")

/-- A body that completes normally returning `None`, like
`BlogPost.publish`. -/
def okBody : Body := fun _ _ => .ok .none

/-- A guard that returns `True`, like `condition_func` in the tests. -/
def trueGuard : Guard := fun _ _ => .ok (.bool true)

/-- A guard that returns `False`, like `unmet_condition` in the tests. -/
def falseGuard : Guard := fun _ _ => .ok (.bool false)

/-- A guard that raises `TypeError`, as a guard of too few parameters does
when invoked with extra arguments. -/
def raisingGuard : Guard := fun _ _ => .error (.typeError "arity mismatch")

/-! Helper lemmas shared by the claim theorems. -/

/-- Reading the state of an instance with exactly one FSM field yields that
field's value. -/
theorem current_state_of_single (inst : Instance) (n s : String)
    (hinst : inst.stateFields = [(n, s)]) : current_state inst = .ok s := by
  simp [current_state, get_state_field, getattr, hinst, dictGet]

/-- Looking a key up right after setting it yields the new value. -/
theorem dictGet_dictSet_self {α : Type} (d : List (String × α)) (k : String)
    (v : α) : dictGet (dictSet d k v) k = some v := by
  induction d with
  | nil => simp [dictSet, dictGet]
  | cons p rest ih =>
      obtain ⟨k', v'⟩ := p
      by_cases h : k' = k <;> simp [dictSet, dictGet, h, ih]

/-- Setting one key leaves lookups of a different key unchanged. -/
theorem dictGet_dictSet_ne {α : Type} (d : List (String × α)) (k k' : String)
    (v : α) (h : k ≠ k') : dictGet (dictSet d k v) k' = dictGet d k' := by
  induction d with
  | nil => simp [dictSet, dictGet, h]
  | cons p rest ih =>
      obtain ⟨k'', v''⟩ := p
      by_cases h2 : k'' = k
      · subst h2; simp [dictSet, dictGet, h]
      · simp [dictSet, dictGet, h2, ih]

/-- Dispatch succeeds when the legality check passes, every guard is truthy
and the body completes: the wrapper returns `None` and the advanced
instance. -/
theorem change_state_ok (meta : FSMMeta) (fname : String)
    (conds : List Guard) (save : Bool) (body : Body) (inst : Instance)
    (args : Args) (v : PyVal) (inst' : Instance)
    (hleg : meta.has_transition inst = .ok true)
    (hg : guardLoop conds inst args = .ok true)
    (hb : body inst args = .ok v)
    (hn : meta.to_next_state inst = .ok inst') :
    change_state meta fname conds save body inst args =
      (.ok PyVal.none, inst') := by
  simp [change_state, hleg, hg, hb, hn]

/-- Claim C1 (confirmed): when the legality check passes and all guards
pass but the body raises, the exception propagates to the caller and the
instance — in particular its state attribute — is exactly as before the
call: the advance step never runs on the exception path. -/
theorem C1_body_exception_preserves_state (meta : FSMMeta) (fname : String)
    (conds : List Guard) (save : Bool) (body : Body) (inst : Instance)
    (args : Args) (e : PyError)
    (hleg : meta.has_transition inst = .ok true)
    (hguards : guardLoop conds inst args = .ok true)
    (hbody : body inst args = .error e) :
    change_state meta fname conds save body inst args = (.error e, inst) := by
  simp [change_state, hleg, hguards, hbody]

/-- Witness for C1 at the `remove` transition of the test model: the body
raises from state `new`, the exception surfaces, and the state is still
`new`. -/
theorem C1_witness :
    change_state removeMeta "remove" [] false removeBody instNew [] =
      (.error (.userError "No rights to delete"), instNew) :=
  C1_body_exception_preserves_state removeMeta "remove" [] false removeBody
    instNew [] (.userError "No rights to delete") rfl rfl rfl

/-- Claim C2 (confirmed): with no exact entry for the current state and no
wildcard entry, the call raises `NotImplementedError` carrying the current
state and the method name, for every body (so the body is never invoked),
and leaves the instance unchanged; iterating such illegal calls any number
of times never mutates the state. -/
theorem C2_illegal_transition_rejected (meta : FSMMeta) (fname : String)
    (conds : List Guard) (save : Bool) (body : Body) (n s : String)
    (inst : Instance) (args : Args)
    (hinst : inst.stateFields = [(n, s)])
    (h1 : hasKey meta.transitions s = false)
    (h2 : hasKey meta.transitions "*" = false) :
    change_state meta fname conds save body inst args =
      (.error (.notImplementedError ("Can\x27t switch from state \x27" ++ s ++
        "\x27 using method \x27" ++ fname ++ "\x27")), inst)
    ∧ ∀ k : Nat,
        (fun i => (change_state meta fname conds save body i args).2)^[k]
          inst = inst := by
  have hcur : current_state inst = .ok s := current_state_of_single inst n s hinst
  have hht : meta.has_transition inst = .ok false := by
    simp [FSMMeta.has_transition, hcur, h1, h2]
  have hone : change_state meta fname conds save body inst args =
      (.error (.notImplementedError ("Can\x27t switch from state \x27" ++ s ++
        "\x27 using method \x27" ++ fname ++ "\x27")), inst) := by
    simp [change_state, hht, hcur]
  refine ⟨hone, ?_⟩
  intro k
  induction k with
  | zero => rfl
  | succ k ih =>
      rw [Function.iterate_succ_apply, hone]
      exact ih

/-- Witness for C2: calling `hide` while in state `new` (no `new` entry, no
wildcard in `hide`'s registry) raises the illegal-transition error naming
`new` and `hide`, and three repeated calls leave the state at `new`. -/
theorem C2_witness :
    change_state hideMeta "hide" [] false okBody instNew [] =
      (.error (.notImplementedError ("Can\x27t switch from state \x27" ++
        "new" ++ "\x27 using method \x27" ++ "hide" ++ "\x27")), instNew)
    ∧ (fun i => (change_state hideMeta "hide" [] false okBody i []).2)^[3]
        instNew = instNew := by
  have h := C2_illegal_transition_rejected hideMeta "hide" [] false okBody
    "state" "new" instNew [] rfl rfl rfl
  exact ⟨h.1, h.2 3⟩

/-- Claim C4, counterexample: a guard that raises `TypeError` during direct
invocation of the decorated method does not produce a swallowed falsy
return — the exception propagates out of `_change_state` (the
`except TypeError` swallow lives only in `conditions_met`, which the
wrapper's guard loop does not use). -/
theorem C4_counterexample :
    change_state
      (registerTransition mkFSMMeta (.single "published") "approved"
        [raisingGuard])
      "approve" [raisingGuard] false okBody instPublished [] =
      (.error (.typeError "arity mismatch"), instPublished) := rfl

/-- Claim C4 as amended (the raised guard exception propagates instead of
being swallowed): when the legality check passes and the guard loop raises,
the exception propagates to the caller, the body is not executed (the
conclusion holds for every body), and the instance is unchanged. -/
theorem C4_amended_guard_exception_propagates (meta : FSMMeta)
    (fname : String) (conds : List Guard) (save : Bool) (body : Body)
    (inst : Instance) (args : Args) (e : PyError)
    (hleg : meta.has_transition inst = .ok true)
    (hguard : guardLoop conds inst args = .error e) :
    change_state meta fname conds save body inst args = (.error e, inst) := by
  simp [change_state, hleg, hguard]

/-- Witness for the amended C4 at a concrete raising guard. -/
theorem C4_witness :
    change_state
      (registerTransition mkFSMMeta (.single "published") "approved"
        [raisingGuard])
      "approve" [raisingGuard] false removeBody instPublished [] =
      (.error (.typeError "arity mismatch"), instPublished) :=
  C4_amended_guard_exception_propagates _ "approve" [raisingGuard] false
    removeBody instPublished [] (.typeError "arity mismatch") rfl rfl

/-- A body returning the Python int 42, to exhibit that the wrapper
discards the body's return value. -/
def body42 : Body := fun _ _ => .ok (.int 42)

/-- Claim C5, counterexample: from `new`, `publish` with a body returning 42
advances the state to `published` but the wrapped call returns `None`, not
the body's return value. -/
theorem C5_counterexample :
    change_state publishMeta "publish" [] false body42 instNew [] =
      (.ok PyVal.none, ⟨[("state", "published")]⟩)
    ∧ body42 instNew [] = .ok (.int 42)
    ∧ PyVal.none ≠ PyVal.int 42 :=
  ⟨rfl, rfl, by decide⟩

/-- Claim C5 as amended (the wrapper returns `None`, discarding the body's
return value): when the legality check passes, all guards pass and the body
completes with any value, the wrapped call returns `None` and the state
attribute is advanced to the configured target. -/
theorem C5_amended_returns_none_and_advances (meta : FSMMeta)
    (fname : String) (conds : List Guard) (body : Body) (inst : Instance)
    (args : Args) (v : PyVal) (inst' : Instance)
    (hleg : meta.has_transition inst = .ok true)
    (hguards : guardLoop conds inst args = .ok true)
    (hbody : body inst args = .ok v)
    (hnext : meta.to_next_state inst = .ok inst') :
    change_state meta fname conds false body inst args =
      (.ok PyVal.none, inst') := by
  simp [change_state, hleg, hguards, hbody, hnext]

/-- Witness for the amended C5: `publish` from `new` with a body returning
42 yields `None` and state `published`. -/
theorem C5_witness :
    change_state publishMeta "publish" [] false body42 instNew [] =
      (.ok PyVal.none, ⟨[("state", "published")]⟩) :=
  C5_amended_returns_none_and_advances publishMeta "publish" [] body42
    instNew [] (.int 42) ⟨[("state", "published")]⟩ rfl rfl rfl rfl

/-- Claim C10 (confirmed): `can_proceed` on a bound method carrying no
`_django_fsm` metadata raises `NotImplementedError` naming the method — a
hard failure, not a `False` return. -/
theorem C10_can_proceed_non_transition (name : String) (inst : Instance)
    (args : Args) :
    can_proceed ⟨name, Option.none, inst⟩ args =
      .error (.notImplementedError (name ++ " method is not transition")) :=
  rfl

/-- Guard loops compose: once a prefix of guards has evaluated entirely
truthy, the loop continues with the remaining guards. -/
theorem guardLoop_append_of_true (pre rest : List Guard) (inst : Instance)
    (args : Args) (h : guardLoop pre inst args = .ok true) :
    guardLoop (pre ++ rest) inst args = guardLoop rest inst args := by
  induction pre with
  | nil => simp
  | cons g pre ih =>
      cases hg : g inst args with
      | error e => simp [guardLoop, hg] at h
      | ok v =>
          by_cases hv : v.truthy
          · simp only [guardLoop, hg, hv, if_true] at h
            simp only [List.cons_append, guardLoop, hg, hv, if_true]
            exact ih h
          · simp [guardLoop, hg, hv] at h

/-- Claim C6 (confirmed): with a matching source or wildcard entry, guards
run in declared order and the first falsy guard aborts the call with the
falsy value `False`, the state unchanged — for every tail of later guards
and every body, so neither is evaluated. -/
theorem C6_first_falsy_guard_aborts (meta : FSMMeta) (fname : String)
    (save : Bool) (body : Body) (inst : Instance) (args : Args)
    (pre post : List Guard) (g : Guard) (v : PyVal)
    (hleg : meta.has_transition inst = .ok true)
    (hpre : guardLoop pre inst args = .ok true)
    (hg : g inst args = .ok v) (hv : v.truthy = false) :
    change_state meta fname (pre ++ g :: post) save body inst args =
      (.ok (.bool false), inst) := by
  have hloop : guardLoop (pre ++ g :: post) inst args = .ok false := by
    rw [guardLoop_append_of_true pre (g :: post) inst args hpre]
    simp [guardLoop, hg, hv]
  simp [change_state, hleg, hloop]

/-- Witness for C6: from `published`, `destroy` with guards
`[true, false, raising]` returns `False` and leaves the state at
`published`; the raising third guard and the body are never reached. -/
theorem C6_witness :
    change_state
      (registerTransition mkFSMMeta (.single "published") "destroyed"
        [trueGuard, falseGuard, raisingGuard])
      "destroy" ([trueGuard] ++ falseGuard :: [raisingGuard]) false okBody
      instPublished [] = (.ok (.bool false), instPublished) :=
  C6_first_falsy_guard_aborts _ "destroy" false okBody instPublished []
    [trueGuard] [raisingGuard] falseGuard (.bool false) rfl rfl rfl rfl

/-- Claim C7 (confirmed): a method registered for the wildcard source with
target T succeeds from any current state, yielding T (guards and body
permitting); and for any registry holding an exact entry for the current
state, that entry is preferred over the wildcard — by the legality check,
by the state advance, and by the guard-resolution step of
`conditions_met`. -/
theorem C7_wildcard_applies_and_exact_precedes (T fieldName s fname : String)
    (conds : List Guard) (body : Body) (args : Args) (v : PyVal)
    (hg : guardLoop conds ⟨[(fieldName, s)]⟩ args = .ok true)
    (hb : body ⟨[(fieldName, s)]⟩ args = .ok v) :
    change_state (registerTransition mkFSMMeta (.single "*") T conds) fname
        conds false body ⟨[(fieldName, s)]⟩ args =
      (.ok PyVal.none, ⟨[(fieldName, T)]⟩)
    ∧ ∀ (meta : FSMMeta) (t : String),
        dictGet meta.transitions s = some t →
          meta.has_transition ⟨[(fieldName, s)]⟩ = .ok true
          ∧ meta.to_next_state ⟨[(fieldName, s)]⟩ = .ok ⟨[(fieldName, t)]⟩
          ∧ (t ≠ "" → meta.resolveNext s = .ok t) := by
  have hcur : current_state ⟨[(fieldName, s)]⟩ = .ok s :=
    current_state_of_single _ fieldName s rfl
  constructor
  · have hleg : (registerTransition mkFSMMeta (.single "*") T
        conds).has_transition ⟨[(fieldName, s)]⟩ = .ok true := by
      simp [FSMMeta.has_transition, hcur, registerTransition, mkFSMMeta,
        hasKey, dictGet]
    have hnext : (registerTransition mkFSMMeta (.single "*") T
        conds).to_next_state ⟨[(fieldName, s)]⟩ = .ok ⟨[(fieldName, T)]⟩ := by
      by_cases hs : ("*" : String) = s <;>
        simp [FSMMeta.to_next_state, FSMMeta.advanceTarget, get_state_field,
          getattr, setattr, registerTransition, mkFSMMeta, dictGet, dictSet,
          hs]
    exact change_state_ok _ fname conds false body _ args v _ hleg hg hb hnext
  · intro meta t ht
    refine ⟨?_, ?_, ?_⟩
    · simp [FSMMeta.has_transition, hcur, hasKey, ht]
    · simp [FSMMeta.to_next_state, FSMMeta.advanceTarget, get_state_field,
        getattr, setattr, dictGet, dictSet, ht]
    · intro htt
      simp [FSMMeta.resolveNext, ht, htt]

/-- A registry holding both an exact entry `new → published` and a wildcard
entry `* → moderated`, to exhibit exact-over-wildcard precedence. -/
def bothMeta : FSMMeta :=
  registerTransition (registerTransition mkFSMMeta (.single "*") "moderated"
    []) (.single "new") "published" []

/-- Witness for C7: `moderate` (`* → moderated`) succeeds from `new`, and on
a registry with both `new → published` and `* → moderated` the exact entry
wins for legality, advance and guard resolution. -/
theorem C7_witness :
    change_state moderateMeta "moderate" [] false okBody instNew [] =
      (.ok PyVal.none, ⟨[("state", "moderated")]⟩)
    ∧ bothMeta.has_transition instNew = .ok true
    ∧ bothMeta.to_next_state instNew = .ok ⟨[("state", "published")]⟩
    ∧ bothMeta.resolveNext "new" = .ok "published" := by
  have h := C7_wildcard_applies_and_exact_precedes "moderated" "state" "new"
    "moderate" [] okBody [] PyVal.none rfl rfl
  have hb := h.2 bothMeta "published" rfl
  exact ⟨h.1, hb.1, hb.2.1, hb.2.2 (by decide)⟩

/-- Claim C8 (confirmed): decorating with sources `[A, B]` and target T is
the same registration as two single-source registrations of A and B to T,
and invoking the method from a state equal to A or to B (guards and body
permitting) yields state T. -/
theorem C8_multi_source_equivalence (A B T fieldName fname s : String)
    (conds : List Guard) (body : Body) (args : Args) (v : PyVal)
    (hs : s = A ∨ s = B)
    (hg : guardLoop conds ⟨[(fieldName, s)]⟩ args = .ok true)
    (hb : body ⟨[(fieldName, s)]⟩ args = .ok v) :
    registerTransition mkFSMMeta (.multi [A, B]) T conds =
      registerTransition
        (registerTransition mkFSMMeta (.single A) T conds) (.single B) T conds
    ∧ change_state (registerTransition mkFSMMeta (.multi [A, B]) T conds)
        fname conds false body ⟨[(fieldName, s)]⟩ args =
      (.ok PyVal.none, ⟨[(fieldName, T)]⟩) := by
  have hcur : current_state ⟨[(fieldName, s)]⟩ = .ok s :=
    current_state_of_single _ fieldName s rfl
  have hget : dictGet (registerTransition mkFSMMeta (.multi [A, B]) T
      conds).transitions s = some T := by
    show dictGet (dictSet (dictSet ([] : List (String × String)) A T) B T) s
      = some T
    rcases hs with hsa | hsb
    · rw [hsa]
      by_cases hab : B = A
      · rw [hab]; exact dictGet_dictSet_self _ _ _
      · rw [dictGet_dictSet_ne _ _ _ _ hab]
        exact dictGet_dictSet_self _ _ _
    · rw [hsb]; exact dictGet_dictSet_self _ _ _
  constructor
  · simp [registerTransition, mkFSMMeta, dictSet]
  · have hleg : (registerTransition mkFSMMeta (.multi [A, B]) T
        conds).has_transition ⟨[(fieldName, s)]⟩ = .ok true := by
      simp [FSMMeta.has_transition, hcur, hasKey, hget]
    have hnext : (registerTransition mkFSMMeta (.multi [A, B]) T
        conds).to_next_state ⟨[(fieldName, s)]⟩ = .ok ⟨[(fieldName, T)]⟩ := by
      simp [FSMMeta.to_next_state, FSMMeta.advanceTarget, get_state_field,
        getattr, setattr, dictGet, dictSet, hget]
    exact change_state_ok _ fname conds false body _ args v _ hleg hg hb hnext

/-- Witness for C8 at the `steal` transition of the test model
(`[published, hidden] → stolen`), invoked from `hidden`. -/
theorem C8_witness :
    registerTransition mkFSMMeta (.multi ["published", "hidden"]) "stolen" []
      = registerTransition
        (registerTransition mkFSMMeta (.single "published") "stolen" [])
        (.single "hidden") "stolen" []
    ∧ change_state
        (registerTransition mkFSMMeta (.multi ["published", "hidden"])
          "stolen" [])
        "steal" [] false okBody ⟨[("state", "hidden")]⟩ [] =
      (.ok PyVal.none, ⟨[("state", "stolen")]⟩) :=
  C8_multi_source_equivalence "published" "hidden" "stolen" "state" "steal"
    "hidden" [] okBody [] PyVal.none (Or.inr rfl) rfl rfl

/-- Claim C9 (confirmed): reading the current state is a hard `TypeError`
when the entity declares zero FSM fields or more than one, and otherwise
returns the unique field's value; every dispatch on a malformed entity
fails with the same error and leaves the instance unchanged. -/
theorem C9_state_field_configuration (inst : Instance) (meta : FSMMeta)
    (fname : String) (conds : List Guard) (save : Bool) (body : Body)
    (args : Args) :
    (inst.stateFields = [] →
        current_state inst = .error (.typeError "No FSMField found in model")
        ∧ change_state meta fname conds save body inst args =
            (.error (.typeError "No FSMField found in model"), inst))
    ∧ (2 ≤ inst.stateFields.length →
        current_state inst =
            .error (.typeError "More than one FSMField found in model")
        ∧ change_state meta fname conds save body inst args =
            (.error (.typeError "More than one FSMField found in model"),
              inst))
    ∧ (∀ n v, inst.stateFields = [(n, v)] → current_state inst = .ok v) := by
  refine ⟨?_, ?_, ?_⟩
  · intro h0
    have hcs : current_state inst =
        .error (.typeError "No FSMField found in model") := by
      simp [current_state, get_state_field, h0]
    have hht : meta.has_transition inst =
        .error (.typeError "No FSMField found in model") := by
      simp [FSMMeta.has_transition, hcs]
    exact ⟨hcs, by simp [change_state, hht]⟩
  · intro h2
    rcases hfields : inst.stateFields with _ | ⟨a, _ | ⟨b, rest⟩⟩
    · rw [hfields] at h2; simp at h2
    · rw [hfields] at h2; simp at h2
    · have hcs : current_state inst =
          .error (.typeError "More than one FSMField found in model") := by
        simp [current_state, get_state_field, hfields]
      have hht : meta.has_transition inst =
          .error (.typeError "More than one FSMField found in model") := by
        simp [FSMMeta.has_transition, hcs]
      exact ⟨hcs, by simp [change_state, hht]⟩
  · intro n v hinst
    exact current_state_of_single inst n v hinst

/-- Witness for C9: the `InvalidModel` fixture with two FSM fields fails
both the read and a dispatch with the more-than-one error; the empty-field
entity fails with the missing-field error; a well-formed entity reads its
value. -/
theorem C9_witness :
    (current_state ⟨[]⟩ =
        .error (.typeError "No FSMField found in model")
      ∧ change_state publishMeta "publish" [] false okBody ⟨[]⟩ [] =
          (.error (.typeError "No FSMField found in model"), ⟨[]⟩))
    ∧ (current_state ⟨[("state", "new"), ("action", "no")]⟩ =
        .error (.typeError "More than one FSMField found in model")
      ∧ change_state publishMeta "validate" [] false okBody
          ⟨[("state", "new"), ("action", "no")]⟩ [] =
          (.error (.typeError "More than one FSMField found in model"),
            ⟨[("state", "new"), ("action", "no")]⟩))
    ∧ current_state instNew = .ok "new" := by
  refine ⟨?_, ?_, ?_⟩
  · exact (C9_state_field_configuration ⟨[]⟩ publishMeta "publish" [] false
      okBody []).1 rfl
  · exact (C9_state_field_configuration ⟨[("state", "new"), ("action", "no")]⟩
      publishMeta "validate" [] false okBody []).2.1 (by decide)
  · exact (C9_state_field_configuration instNew publishMeta "publish" []
      false okBody []).2.2 "state" "new" rfl

/-- Membership in a defaultdict bucket after one append: the old bucket
members, plus the appended element under its own key. -/
theorem mem_dictAppend {α : Type} (sa : List (String × List α))
    (k k' : String) (v x : α) :
    x ∈ (dictGet (dictAppend sa k v) k').getD [] ↔
      x ∈ (dictGet sa k').getD [] ∨ (k' = k ∧ x = v) := by
  induction sa with
  | nil =>
      by_cases h : k = k'
      · subst h; simp [dictAppend, dictGet]
      · have h' : k' ≠ k := fun hh => h hh.symm
        simp [dictAppend, dictGet, h, h']
  | cons p rest ih =>
      obtain ⟨k0, vs⟩ := p
      by_cases hk : k0 = k
      · subst hk
        by_cases hk' : k0 = k'
        · subst hk'; simp [dictAppend, dictGet]
        · have h' : k' ≠ k0 := fun hh => hk' hh.symm
          simp [dictAppend, dictGet, hk', h']
      · by_cases hk' : k0 = k'
        · subst hk'
          simp [dictAppend, dictGet, hk]
        · simp [dictAppend, dictGet, hk, hk', ih]

/-- Membership in a bucket after scanning one method's registry: the old
bucket members, plus (method, target) for each of its pairs under the
matching source key. -/
theorem mem_foldAppend (m : TransMethod) (ts : List (String × String))
    (sa : List (String × List (TransMethod × String))) (k : String)
    (x : TransMethod × String) :
    x ∈ (dictGet (ts.foldl (fun sa p => dictAppend sa p.1 (m, p.2)) sa)
        k).getD [] ↔
      x ∈ (dictGet sa k).getD [] ∨ ∃ t, (k, t) ∈ ts ∧ x = (m, t) := by
  induction ts generalizing sa with
  | nil => simp
  | cons p ts ih =>
      obtain ⟨src, tgt⟩ := p
      rw [List.foldl_cons, ih, mem_dictAppend]
      constructor
      · rintro ((hx | ⟨rfl, rfl⟩) | ⟨t, ht, rfl⟩)
        · exact Or.inl hx
        · exact Or.inr ⟨tgt, by simp, rfl⟩
        · exact Or.inr ⟨t, List.mem_cons_of_mem _ ht, rfl⟩
      · rintro (hx | ⟨t, ht, rfl⟩)
        · exact Or.inl (Or.inl hx)
        · rcases List.mem_cons.mp ht with heq | hmem
          · rw [Prod.mk.injEq] at heq
            exact Or.inl (Or.inr ⟨heq.1, by rw [heq.2]⟩)
          · exact Or.inr ⟨t, hmem, rfl⟩

/-- Membership after the whole class scan over an arbitrary starting
index. -/
theorem mem_buildFold (ms : List TransMethod)
    (sa : List (String × List (TransMethod × String))) (k : String)
    (x : TransMethod × String) :
    x ∈ (dictGet (ms.foldl (fun sa m =>
        m.meta.transitions.foldl (fun sa p => dictAppend sa p.1 (m, p.2)) sa)
        sa) k).getD [] ↔
      x ∈ (dictGet sa k).getD [] ∨
        ∃ m t, m ∈ ms ∧ (k, t) ∈ m.meta.transitions ∧ x = (m, t) := by
  induction ms generalizing sa with
  | nil => simp
  | cons m ms ih =>
      rw [List.foldl_cons, ih, mem_foldAppend]
      constructor
      · rintro ((hx | ⟨t, ht, rfl⟩) | ⟨m', t, hm', ht, rfl⟩)
        · exact Or.inl hx
        · exact Or.inr ⟨m, t, List.mem_cons_self m ms, ht, rfl⟩
        · exact Or.inr ⟨m', t, List.mem_cons_of_mem _ hm', ht, rfl⟩
      · rintro (hx | ⟨m', t, hm', ht, rfl⟩)
        · exact Or.inl (Or.inl hx)
        · rcases List.mem_cons.mp hm' with rfl | hmem
          · exact Or.inl (Or.inr ⟨t, ht, rfl⟩)
          · exact Or.inr ⟨m', t, hmem, ht, rfl⟩

/-- Membership in the class transition index bucket of a state: exactly the
(method, target) pairs whose registry holds an exact entry keyed by that
state. -/
theorem mem_buildStateActions (ms : List TransMethod) (k : String)
    (x : TransMethod × String) :
    x ∈ lookupActions (buildStateActions ms) k ↔
      ∃ m t, m ∈ ms ∧ (k, t) ∈ m.meta.transitions ∧ x = (m, t) := by
  have h := mem_buildFold ms [] k x
  simpa [buildStateActions, lookupActions, dictGet] using h

/-- Membership in the filtered result: exactly the candidates whose
`conditions_met` evaluates to true, provided the filter loop completed
without raising. -/
theorem mem_filterAccessible (inst : Instance) (args : Args)
    (l L : List (TransMethod × String))
    (h : filterAccessible inst args l = .ok L) (x : TransMethod × String) :
    x ∈ L ↔ x ∈ l ∧ x.1.meta.conditions_met inst args = .ok true := by
  induction l generalizing L with
  | nil =>
      simp only [filterAccessible, Except.ok.injEq] at h
      subst h; simp
  | cons c rest ih =>
      cases hcm : c.1.meta.conditions_met inst args with
      | error e =>
          simp only [filterAccessible, hcm] at h
          exact Except.noConfusion h
      | ok b =>
          cases hrest : filterAccessible inst args rest with
          | error e =>
              simp only [filterAccessible, hcm, hrest] at h
              exact Except.noConfusion h
          | ok restL =>
              simp only [filterAccessible, hcm, hrest, Except.ok.injEq] at h
              subst h
              cases b with
              | false =>
                  simp only [Bool.false_eq_true, if_false]
                  rw [ih restL hrest]
                  constructor
                  · rintro ⟨hx, hcmx⟩
                    exact ⟨List.mem_cons_of_mem _ hx, hcmx⟩
                  · rintro ⟨hx, hcmx⟩
                    rcases List.mem_cons.mp hx with rfl | hx
                    · simp [hcm] at hcmx
                    · exact ⟨hx, hcmx⟩
              | true =>
                  simp only [if_true]
                  constructor
                  · intro hx
                    rcases List.mem_cons.mp hx with rfl | hx
                    · exact ⟨List.mem_cons_self _ _, hcm⟩
                    · have hh := (ih restL hrest).mp hx
                      exact ⟨List.mem_cons_of_mem _ hh.1, hh.2⟩
                  · rintro ⟨hx, hcmx⟩
                    rcases List.mem_cons.mp hx with rfl | hx
                    · exact List.mem_cons_self _ _
                    · exact List.mem_cons_of_mem _
                        ((ih restL hrest).mpr ⟨hx, hcmx⟩)

/-- The `moderate` method (`* → moderated`) as the introspection scan sees
it. -/
def moderateMethod : TransMethod := ⟨"moderate", moderateMeta⟩

/-- The `publish` method (`new → published`) as the introspection scan sees
it. -/
def publishMethod : TransMethod := ⟨"publish", publishMeta⟩

/-- Claim C3, counterexample: from state `new`, `accessible_states` on a
class whose only transition method is `moderate` (`* → moderated`, no
guards) returns the empty list, although dispatching `moderate` with the
same arguments is accepted and advances the state to `moderated` — a
wildcard-only method is invisible to introspection. -/
theorem C3_counterexample :
    accessible_states [moderateMethod] instNew [] = .ok []
    ∧ change_state moderateMeta "moderate" [] false okBody instNew [] =
        (.ok PyVal.none, ⟨[("state", "moderated")]⟩) :=
  ⟨rfl, rfl⟩

/-- Claim C3 as amended (wildcard-only registrations are excluded): when
`accessible_states` completes without raising, it returns exactly the
(method, target) pairs whose registry holds an exact entry keyed by the
current state with that target and whose `conditions_met` check passes for
the same arguments; methods registered only under the wildcard source are
never included, even when dispatch would accept them. -/
theorem C3_amended_introspection_exact_only (ms : List TransMethod)
    (inst : Instance) (args : Args) (cur : String)
    (L : List (TransMethod × String)) (m : TransMethod) (t : String)
    (hcur : current_state inst = .ok cur)
    (hacc : accessible_states ms inst args = .ok L) :
    (m, t) ∈ L ↔
      m ∈ ms ∧ (cur, t) ∈ m.meta.transitions ∧
        m.meta.conditions_met inst args = .ok true := by
  simp only [accessible_states, hcur] at hacc
  have h1 := mem_filterAccessible inst args _ L hacc (m, t)
  rw [mem_buildStateActions] at h1
  rw [h1]
  constructor
  · rintro ⟨⟨m', t', hm', ht', heq⟩, hcm⟩
    rw [Prod.mk.injEq] at heq
    obtain ⟨rfl, rfl⟩ := heq
    exact ⟨hm', ht', hcm⟩
  · rintro ⟨hm, ht, hcm⟩
    exact ⟨⟨m, t, hm, ht, rfl⟩, hcm⟩

/-- Witness for the amended C3: on a class whose only method is `publish`
(`new → published`, no guards) in state `new`, the returned pair
(`publish`, `published`) is characterized by the exact entry and the
passing `conditions_met` check. -/
theorem C3_witness :
    (publishMethod, "published") ∈
        ([(publishMethod, "published")] : List (TransMethod × String)) ↔
      publishMethod ∈ [publishMethod]
      ∧ ("new", "published") ∈ publishMethod.meta.transitions
      ∧ publishMethod.meta.conditions_met instNew [] = .ok true :=
  C3_amended_introspection_exact_only [publishMethod] instNew [] "new"
    [(publishMethod, "published")] publishMethod "published" rfl rfl

end DjangoFsm
